import Mathlib

/-!
Verification development for `TOOLS/ses3d_fields.py` (class `ses3d_fields`):
a shallow embedding of the grid-geometry construction (`read_setup`,
`make_coordinates`, `get_GLL`), the binary field reader (`compose_filenames`,
`read_single_box` with its numpy `ndarray`/`rollaxis`/`reshape` pipeline) and
the depth-slice extraction data flow of `plot_depth_slice`.

Modelling conventions:
* Python floats and the float32 payload values are idealized as exact numbers:
  coordinates as `ℚ`, field payloads over a generic `DivisionRing` (the
  theorems about derived material quantities instantiate it with `ℝ` and
  `Real.sqrt` for `np.sqrt`).
* A binary file is modelled as its sequence of 4-byte words (the Fortran
  record is `4-byte marker ++ payload ++ 4-byte marker`, all lengths being
  multiples of 4); `read()[4:-4]` is therefore `drop 1` / `dropLast`.
* Python/numpy exceptions are values of `PyErr`.  The enumeration also
  contains the error taxonomy that the natural-language specification
  postulates (`formatError`, `noDataError`, ...), so that statements about
  those error classes can be expressed; the embedded code itself only ever
  produces the Python-level errors (`ioError`, `typeError`, `nameError`,
  `attributeError`, `axisError`).
* Plotting / Basemap calls in `plot_depth_slice` are side effects with no
  data flow into the extraction; the embedding keeps the numeric data flow
  (box selection, reads, radial index, slice, running min/max) and the
  Python name-resolution behaviour of the variable `im` that the
  `m.colorbar(im, ...)` call depends on.
-/

/-- Python/numpy exception kinds relevant to the embedded code, together
with the error taxonomy named by the specification (the latter constructors
are never produced by the embedded functions; they exist so that claims
about them are expressible). -/
inductive PyErr where
  | ioError            -- Python: `open` on a missing file (IOError)
  | typeError          -- numpy: "buffer is too small for requested array"
  | nameError          -- Python: unbound local variable (NameError/UnboundLocalError)
  | attributeError     -- Python: missing object attribute
  | axisError          -- numpy: `rollaxis` start out of range
  | formatError
  | notFoundError
  | unknownComponentError
  | unsupportedDegreeError
  | invalidConfigurationError
  | noDataError
  deriving DecidableEq, Repr

/-- The two admissible `field_type` values of `ses3d_fields.__init__`. -/
inductive FieldType where
  | earth_model
  | velocity_snapshot
  deriving DecidableEq, Repr

/-- `setup["domain"]`: the values stored by `read_setup` (angles already in
radians, radii in metres). -/
structure Domain where
  theta_min : ℚ
  theta_max : ℚ
  phi_min : ℚ
  phi_max : ℚ
  z_min : ℚ
  z_max : ℚ
  deriving DecidableEq, Repr

/-- `setup["procs"]`. -/
structure Procs where
  px : Nat
  py : Nat
  pz : Nat
  deriving DecidableEq, Repr

/-- `setup["elements"]`: global element counts as parsed, and the derived
per-processor local element counts. -/
structure Elements where
  nx_global : Nat
  ny_global : Nat
  nz_global : Nat
  nx : Nat
  ny : Nat
  nz : Nat
  deriving DecidableEq, Repr

/-- `setup` as assembled by `read_setup`. -/
structure Setup where
  domain : Domain
  lpd : Nat
  procs : Procs
  elements : Elements
  deriving DecidableEq, Repr

/-- Embeds `read_setup` (ses3d_fields.py lines 60-109).  The line-oriented
text parsing and the degree-to-radian conversion of the four angles are the
producer of the numeric inputs taken here as arguments, in file order.  The
local element counts are `1 + global // procs` — Python 2 integer division
on the parsed `int` values, embedded as `Nat` floor division (the counts
are non-negative); no divisibility check is performed. -/
def read_setup (domain : Domain) (nx_global ny_global nz_global : Nat)
    (lpd : Nat) (px py pz : Nat) : Setup :=
  ⟨domain, lpd, ⟨px, py, pz⟩,
   ⟨nx_global, ny_global, nz_global,
    1 + nx_global / px, 1 + ny_global / py, 1 + nz_global / pz⟩⟩

/-- Python's `min` / numpy's `.min()` over a list: the fold of `min` over
the elements (`List.min?`), with a junk default for the empty list (where
Python would raise); callers below only use it on non-empty lists. -/
def pyMin {α : Type} [Min α] (d : α) (l : List α) : α :=
  (l.min?).getD d

/-- Python's `max` / numpy's `.max()`, analogously. -/
def pyMax {α : Type} [Max α] (d : α) (l : List α) : α :=
  (l.max?).getD d

/-- `np.arange(start, stop, step)` for a positive rational step: the values
`start + i*step` for `0 ≤ i < ⌈(stop-start)/step⌉`. -/
def pyArange (start stop step : ℚ) : List ℚ :=
  (List.range (Int.ceil ((stop - start) / step)).toNat).map
    (fun i : Nat => start + (i : ℚ) * step)

/-- Embeds `get_GLL` (lines 166-184): the fixed node table for Lagrange
polynomial degrees 2..7.  For any other degree the `if`-chain assigns
nothing and `return knots` raises an unbound-local error. -/
def get_GLL (lpd : Nat) : Except PyErr (List ℚ) :=
  if lpd = 2 then
    .ok [-1, 0, 1]
  else if lpd = 3 then
    .ok [-1, -0.4472135954999579, 0.4472135954999579, 1]
  else if lpd = 4 then
    .ok [-1, -0.6546536707079772, 0, 0.6546536707079772, 1]
  else if lpd = 5 then
    .ok [-1, -0.7650553239294647, -0.2852315164806451,
         0.2852315164806451, 0.7650553239294647, 1]
  else if lpd = 6 then
    .ok [-1, -0.8302238962785670, -0.4688487934707142, 0,
         0.4688487934707142, 0.8302238962785670, 1]
  else if lpd = 7 then
    .ok [-1, -0.8717401485096066, -0.5917001814331423, -0.2092992179024789,
         0.2092992179024789, 0.5917001814331423, 0.8717401485096066, 1]
  else
    .error .nameError

/-- The per-axis knot line of `make_coordinates` (lines 131-141): one copy
of `GLL + 1`, followed by `GLL + 1 + 2*(i+1)` for `i = 0..n-2`. -/
def knot_line (gll : List ℚ) (n : Nat) : List ℚ :=
  gll.map (fun t => t + 1) ++
    (List.range (n - 1)).flatMap (fun i => gll.map (fun t => t + 1 + 2 * ((i : ℚ) + 1)))

/-- The rescaled knot line (lines 143-145): `knot * width / np.max(knot)`
elementwise, with the maximum taken over the unscaled line. -/
def knot_scaled (gll : List ℚ) (n : Nat) (width : ℚ) : List ℚ :=
  (knot_line gll n).map (fun t => t * width / pyMax 0 (knot_line gll n))

/-- Per-processor block width along theta (line 122). -/
def width_theta (s : Setup) : ℚ :=
  (s.domain.theta_max - s.domain.theta_min) / (s.procs.px : ℚ)

/-- Per-processor block width along phi (line 123). -/
def width_phi (s : Setup) : ℚ :=
  (s.domain.phi_max - s.domain.phi_min) / (s.procs.py : ℚ)

/-- Per-processor block width along z (line 124). -/
def width_z (s : Setup) : ℚ :=
  (s.domain.z_max - s.domain.z_min) / (s.procs.pz : ℚ)

/-- `boundaries_theta` (line 126). -/
def boundaries_theta (s : Setup) : List ℚ :=
  pyArange s.domain.theta_min (s.domain.theta_max + width_theta s) (width_theta s)

/-- `boundaries_phi` (line 127). -/
def boundaries_phi (s : Setup) : List ℚ :=
  pyArange s.domain.phi_min (s.domain.phi_max + width_phi s) (width_phi s)

/-- `boundaries_z` (line 128). -/
def boundaries_z (s : Setup) : List ℚ :=
  pyArange s.domain.z_min (s.domain.z_max + width_z s) (width_z s)

/-- The coordinate arrays produced by `make_coordinates`: `self.theta`,
`self.phi`, `self.z`, each indexed by the processor-box number `p`. -/
structure Coords where
  theta : Nat → List ℚ
  phi : Nat → List ℚ
  z : Nat → List ℚ

/-- The processor-index decomposition of the triple loop (lines 153-161):
`p` is incremented with `ix` fastest, then `iy`, then `iz`, so
`p = (iz*py + iy)*px + ix`. -/
def ix_of (s : Setup) (p : Nat) : Nat := p % s.procs.px

/-- `iy` component of the box index `p`. -/
def iy_of (s : Setup) (p : Nat) : Nat := (p / s.procs.px) % s.procs.py

/-- `iz` component of the box index `p`. -/
def iz_of (s : Setup) (p : Nat) : Nat := p / (s.procs.px * s.procs.py)

/-- Embeds `make_coordinates` (lines 114-161).  For box `p`:
`theta[p] = boundaries_theta[ix] + knot_x` and likewise for `phi`, while
the z line is assigned through the reversed slice
`self.z[p, ::-1] = boundaries_z[iz] + knot_z`, so the stored z array is the
reverse of the shifted knot line.  A degree outside the `get_GLL` table
propagates that failure. -/
def make_coordinates (s : Setup) : Except PyErr Coords :=
  (get_GLL s.lpd).map (fun gll =>
    ⟨fun p => (knot_scaled gll s.elements.nx (width_theta s)).map
        (fun t => (boundaries_theta s).getD (ix_of s p) 0 + t),
     fun p => (knot_scaled gll s.elements.ny (width_phi s)).map
        (fun t => (boundaries_phi s).getD (iy_of s p) 0 + t),
     fun p => ((knot_scaled gll s.elements.nz (width_z s)).map
        (fun t => (boundaries_z s).getD (iz_of s p) 0 + t)).reverse⟩)

/-- The long-lived object state set up by `__init__` and `read_setup` /
`make_coordinates`: directory, field type, parsed setup and the three
per-box coordinate arrays. -/
structure St where
  directory : String
  field_type : FieldType
  setup : Setup
  theta : Nat → List ℚ
  phi : Nat → List ℚ
  z : Nat → List ℚ

/-- `self.pure_components` as assigned in `__init__` (lines 43-52). -/
def pure_components : FieldType → List String
  | .earth_model => ["A", "B", "C", "lambda", "mu", "rhoinv", "Q"]
  | .velocity_snapshot => ["vx", "vy", "vz"]

/-- `self.derived_components`: assigned only for `"earth_model"`; for
`"velocity_snapshot"` the attribute is never set (`none`), so reading it
raises an AttributeError. -/
def derived_components : FieldType → Option (List String)
  | .earth_model => some ["vp", "vsh", "vsv", "rho"]
  | .velocity_snapshot => none

/-- Embeds `compose_filenames` (lines 189-202): `os.path.join(directory,
component + str(proc))` for earth models and
`component + "_" + str(proc) + "_" + str(iteration)` for velocity
snapshots. -/
def compose_filenames (st : St) (component : String) (proc_number : Nat)
    (iteration : Nat) : String :=
  match st.field_type with
  | .earth_model => st.directory ++ "/" ++ component ++ toString proc_number
  | .velocity_snapshot =>
      st.directory ++ "/" ++ component ++ "_" ++ toString proc_number ++ "_"
        ++ toString iteration

/-- A numpy array view: the list of axis sizes, and the element at a given
multi-index (one `Nat` per axis). -/
structure PArr (α : Type) where
  dims : List Nat
  get : List Nat → α

/-- Payload size of one box file: `nx*ny*nz*(lpd+1)^3` values. -/
def payload_count (s : Setup) : Nat :=
  s.elements.nx * s.elements.ny * s.elements.nz * (s.lpd + 1) ^ 3

/-- The on-disk array shape `(nx, ny, nz, lpd+1, lpd+1, lpd+1)` of
line 213. -/
def box_dims (s : Setup) : List Nat :=
  [s.elements.nx, s.elements.ny, s.elements.nz, s.lpd + 1, s.lpd + 1, s.lpd + 1]

/-- Fortran-order (first axis fastest) flat index for the on-disk shape
`(nx, ny, nz, lpd+1, lpd+1, lpd+1)`. -/
def fflat (s : Setup) (idx : List Nat) : Nat :=
  idx.getD 0 0 + s.elements.nx * (idx.getD 1 0 + s.elements.ny *
    (idx.getD 2 0 + s.elements.nz * (idx.getD 3 0 + (s.lpd + 1) *
      (idx.getD 4 0 + (s.lpd + 1) * idx.getD 5 0))))

/-- Embeds the line
`np.ndarray(shape, buffer=open_file.read()[4:-4], dtype="float32", order="F")`
applied to the already-stripped buffer: numpy requires the buffer to hold
at least `nx*ny*nz*(lpd+1)^3` items (otherwise it raises
"TypeError: buffer is too small for requested array"); a longer buffer is
accepted, with only its leading items backing the array. -/
def ndarrayF {α : Type} [Zero α] (s : Setup) (stripped : List α) :
    Except PyErr (PArr α) :=
  if stripped.length < payload_count s then
    .error .typeError
  else
    .ok ⟨box_dims s,
         fun idx => (stripped.take (payload_count s)).getD (fflat s idx) 0⟩

/-- The axis permutation computed by `np.rollaxis(a, axis, start)` on an
`n`-dimensional array (numpy: `axes = list(range(n)); axes.remove(axis);
axes.insert(start - (1 if axis < start else 0), axis)`), or an AxisError
when `start > n`.  The no-move case is the identity permutation. -/
def rollAxes (n axis start : Nat) : Except PyErr (List Nat) :=
  if n + 1 ≤ start then .error .axisError
  else
    let start' := if axis < start then start - 1 else start
    if axis = start' then .ok (List.range n)
    else .ok (((List.range n).filter (fun j => j ≠ axis)).insertIdx start' axis)

/-- `a.transpose(axes)`: new axis `m` is old axis `axes[m]`, so the old
multi-index entry for old axis `j` is the new entry at the position of `j`
in `axes`. -/
def transposeArr {α : Type} (axes : List Nat) (A : PArr α) : PArr α :=
  ⟨axes.map (fun j => A.dims.getD j 0),
   fun idx => A.get ((List.range A.dims.length).map
     (fun j => idx.getD (axes.indexOf j) 0))⟩

/-- `np.rollaxis` on an array view. -/
def npRollaxis {α : Type} (A : PArr α) (axis start : Nat) :
    Except PyErr (PArr α) :=
  match rollAxes A.dims.length axis start with
  | .error e => .error e
  | .ok axes => .ok (transposeArr axes A)

/-- C-order (last axis fastest) multi-index of a flat position. -/
def cIndex : List Nat → Nat → List Nat
  | [], _ => []
  | _ :: rest, f => f / rest.prod :: cIndex rest (f % rest.prod)

/-- `field.reshape([d0,d1,d2], order="C")`, materialized as a nested list:
entry `(x,y,z)` is the element of `A` at C-order flat position
`(x*d1 + y)*d2 + z`. -/
def materialize3 {α : Type} (A : PArr α) (d0 d1 d2 : Nat) :
    List (List (List α)) :=
  (List.range d0).map (fun x => (List.range d1).map (fun y =>
    (List.range d2).map (fun z =>
      A.get (cIndex A.dims ((x * d1 + y) * d2 + z)))))

/-- Entry `(x,y,z)` of a materialized cube. -/
def cubeGet {α : Type} [Zero α] (c : List (List (List α))) (x y z : Nat) : α :=
  ((c.getD x []).getD y []).getD z 0

/-- Reading one primitive file inside `read_single_box`: compose the
filename, open it (IOError when absent), strip the two 4-byte record
markers, and wrap the payload as a Fortran-order array. -/
def read_file {α : Type} [Zero α] (fs : String → Option (List α)) (st : St)
    (component : String) (proc_number iteration : Nat) :
    Except PyErr (PArr α) :=
  match fs (compose_filenames st component proc_number iteration) with
  | none => .error .ioError
  | some raw => ndarrayF st.setup ((raw.drop 1).dropLast)

/-- The reshape of lines 269-274:
`np.rollaxis(np.rollaxis(field, 3, 1), 3, lpd + 1)` followed by
`field.reshape([nx*(lpd+1), ny*(lpd+1), nz*(lpd+1)], order="C")`. -/
def reshape_pipeline {α : Type} (s : Setup) (field : PArr α) :
    Except PyErr (List (List (List α))) := do
  let r1 ← npRollaxis field 3 1
  let r2 ← npRollaxis r1 3 (s.lpd + 1)
  .ok (materialize3 r2 (s.elements.nx * (s.lpd + 1))
        (s.elements.ny * (s.lpd + 1)) (s.elements.nz * (s.lpd + 1)))

/-- Embeds `read_single_box` (lines 207-274).  The component dispatch is
the source's `if component in self.pure_components / elif component in
self.derived_components` chain; when neither branch assigns `field`, the
subsequent `np.rollaxis(field, ...)` raises a NameError (for
`"velocity_snapshot"` already the `self.derived_components` attribute
access raises an AttributeError).  The reshape is
`np.rollaxis(np.rollaxis(field, 3, 1), 3, lpd + 1)` followed by
`reshape([nx*(lpd+1), ny*(lpd+1), nz*(lpd+1)], order="C")`. -/
def read_single_box {α : Type} [DivisionRing α] (sqrt : α → α)
    (fs : String → Option (List α)) (st : St) (component : String)
    (proc_number : Nat) (iteration : Nat) :
    Except PyErr (List (List (List α))) := do
  let s := st.setup
  let field ←
    if component ∈ pure_components st.field_type then
      read_file fs st component proc_number iteration
    else
      match derived_components st.field_type with
      | none => .error .attributeError
      | some ds =>
        if component ∈ ds then
          if component = "rho" then do
            let f ← read_file fs st "rhoinv" proc_number 0
            .ok (⟨f.dims, fun idx => 1 / f.get idx⟩ : PArr α)
          else if component = "vp" then do
            let f1 ← read_file fs st "lambda" proc_number 0
            let f2 ← read_file fs st "mu" proc_number 0
            let f3 ← read_file fs st "rhoinv" proc_number 0
            .ok (⟨f1.dims,
              fun idx => sqrt ((f1.get idx + 2 * f2.get idx) * f3.get idx)⟩ : PArr α)
          else if component = "vsh" then do
            let f1 ← read_file fs st "mu" proc_number 0
            let f2 ← read_file fs st "rhoinv" proc_number 0
            .ok (⟨f1.dims, fun idx => sqrt (f1.get idx * f2.get idx)⟩ : PArr α)
          else if component = "vsv" then do
            let f1 ← read_file fs st "mu" proc_number 0
            let f2 ← read_file fs st "rhoinv" proc_number 0
            let f3 ← read_file fs st "B" proc_number 0
            .ok (⟨f1.dims,
              fun idx => sqrt ((f1.get idx + f3.get idx) * f2.get idx)⟩ : PArr α)
          else .error .nameError
        else .error .nameError
  reshape_pipeline s field

/-- `n_procs = px * py * pz` (lines 119, 293). -/
def n_procs (s : Setup) : Nat :=
  s.procs.px * s.procs.py * s.procs.pz

/-- The guard of the box loop in `plot_depth_slice` (line 325):
`radius >= z[p].min() and radius <= z[p].max()`. -/
def box_contains (st : St) (radius : ℚ) (p : Nat) : Prop :=
  pyMin 0 (st.z p) ≤ radius ∧ radius ≤ pyMax 0 (st.z p)

instance (st : St) (radius : ℚ) (p : Nat) : Decidable (box_contains st radius p) :=
  inferInstanceAs (Decidable (_ ∧ _))

/-- The boxes the loop of `plot_depth_slice` actually processes: the `p` in
`range(n_procs)` passing the inclusive bracket test (iterating the guarded
loop body is iterating over this filtered list). -/
def contributing_boxes (st : St) (radius : ℚ) : List Nat :=
  (List.range (n_procs st.setup)).filter (fun p => decide (box_contains st radius p))

/-- `np.abs` on an exact rational. -/
def pyAbs (q : ℚ) : ℚ :=
  if q < 0 then -q else q

/-- Embeds line 334:
`idz = min(np.where(min(np.abs(z - radius)) == np.abs(z - radius))[0])` —
the least index whose distance to the target radius attains the minimal
distance. -/
def idzOf (zs : List ℚ) (radius : ℚ) : Nat :=
  let dists := zs.map (fun t => pyAbs (t - radius))
  pyMin 0 ((List.range dists.length).filter
    (fun i => decide (pyMin 0 dists = dists.getD i 0)))

/-- `field[:, :, idz]`: the 2-D slice of a materialized cube at radial
index `idz`. -/
def slice_at {α : Type} [Zero α] (field : List (List (List α))) (idz : Nat) :
    List (List α) :=
  field.map (fun plane => plane.map (fun col => col.getD idz 0))

/-- The extraction data `plot_depth_slice` accumulates per contributing
box: the 2-D slices, the running min/max (`None` standing for the initial
infinities) and the last value of the plot handle `im`. -/
structure SliceAcc (α : Type) where
  slices : List (List (List α))
  vmin : Option α
  vmax : Option α
  im : Option (List (List α))
  deriving DecidableEq, Repr

/-- Running `vmin = min(vmin, s.min())` starting from `float("inf")`. -/
def accMin {α : Type} [LinearOrder α] (acc : Option α) (v : α) : Option α :=
  match acc with
  | none => some v
  | some w => some (min w v)

/-- Running `vmax = max(vmax, s.max())` starting from `float("-inf")`. -/
def accMax {α : Type} [LinearOrder α] (acc : Option α) (v : α) : Option α :=
  match acc with
  | none => some v
  | some w => some (max w v)

/-- Minimum of a 2-D slice (`field[:,:,idz].min()`). -/
def sliceMin {α : Type} [LinearOrder α] [Zero α] (sl : List (List α)) : α :=
  pyMin 0 (sl.map (fun row => pyMin 0 row))

/-- Maximum of a 2-D slice (`field[:,:,idz].max()`). -/
def sliceMax {α : Type} [LinearOrder α] [Zero α] (sl : List (List α)) : α :=
  pyMax 0 (sl.map (fun row => pyMax 0 row))

/-- The body of the box loop (lines 325-350) for one contributing box:
read the cube (exceptions propagate), locate the radial index, slice,
update the running extrema, and assign `im` via `pcolormesh`. -/
def slice_step {α : Type} [LinearOrder α] [DivisionRing α] (sqrt : α → α)
    (fs : String → Option (List α)) (st : St) (component : String)
    (radius : ℚ) (iteration : Nat) (acc : SliceAcc α) (p : Nat) :
    Except PyErr (SliceAcc α) := do
  let field ← read_single_box sqrt fs st component p iteration
  let idz := idzOf (st.z p) radius
  let sl := slice_at field idz
  .ok ⟨acc.slices ++ [sl], accMin acc.vmin (sliceMin sl),
       accMax acc.vmax (sliceMax sl), some sl⟩

/-- Embeds the data flow of `plot_depth_slice` (lines 279-362): convert the
depth to a radius (`1000 * (6371 - depth)`), run the guarded box loop, and
afterwards evaluate `m.colorbar(im, ...)` — which raises a NameError when
no box passed the bracket test and `im` was never assigned.  The map
projection, coastline and colour-map calls carry no extraction data and are
elided. -/
def plot_depth_slice {α : Type} [LinearOrder α] [DivisionRing α]
    (sqrt : α → α) (fs : String → Option (List α)) (st : St)
    (component : String) (depth : ℚ) (iteration : Nat) :
    Except PyErr (SliceAcc α) := do
  let radius : ℚ := 1000 * (6371 - depth)
  let acc ← (contributing_boxes st radius).foldlM
    (slice_step sqrt fs st component radius iteration) ⟨[], none, none, none⟩
  match acc.im with
  | none => .error .nameError
  | some _ => .ok acc

/-! Concrete instances used by the closed evaluation theorems below. -/

/-- A concrete domain: theta, phi in `[0,1]`, z in `[0, 1000]` metres. -/
def dom0 : Domain := ⟨0, 1, 0, 1, 0, 1000⟩

/-- Setup with one processor box, `nx = ny = 1`, `nz = 2` local elements,
degree 2. -/
def s_c1 : Setup := ⟨dom0, 2, ⟨1, 1, 1⟩, ⟨1, 1, 2, 1, 1, 2⟩⟩

/-- Earth-model state over `s_c1` (coordinates irrelevant to reading). -/
def st_c1 : St := ⟨"dir", .earth_model, s_c1, fun _ => [], fun _ => [], fun _ => []⟩

/-- A well-framed file for `s_c1`: marker, the 54 sequential payload values
`0..53`, marker. -/
def file_c1 : List ℚ := 0 :: (List.range 54).map (fun n => (n : ℚ)) ++ [0]

/-- Filesystem holding exactly the component-A file of box 0. -/
def fs_c1 : String → Option (List ℚ) :=
  fun name => if name = "dir/A0" then some file_c1 else none

/-- Setup with one box, a single element, degree 6 (payload `7^3 = 343`). -/
def s_c1b : Setup := ⟨dom0, 6, ⟨1, 1, 1⟩, ⟨1, 1, 1, 1, 1, 1⟩⟩

/-- Earth-model state over `s_c1b`. -/
def st_c1b : St := ⟨"dir", .earth_model, s_c1b, fun _ => [], fun _ => [], fun _ => []⟩

/-- A well-framed degree-6 file: marker, `0..342`, marker. -/
def file_c1b : List ℚ := 0 :: (List.range 343).map (fun n => (n : ℚ)) ++ [0]

/-- Filesystem for the degree-6 box. -/
def fs_c1b : String → Option (List ℚ) :=
  fun name => if name = "dir/A0" then some file_c1b else none

/-- Setup with one box, a single element, degree 2: payload count 27. -/
def s_c3 : Setup := ⟨dom0, 2, ⟨1, 1, 1⟩, ⟨1, 1, 1, 1, 1, 1⟩⟩

/-- Earth-model state over `s_c3`. -/
def st_c3 : St := ⟨"dir", .earth_model, s_c3, fun _ => [0, 1], fun _ => [0, 1],
  fun _ => [1000, 500, 0]⟩

/-- A file whose stripped payload has only 26 words (one too few). -/
def file_c3_short : List ℚ := 0 :: (List.range 26).map (fun n => (n : ℚ)) ++ [0]

/-- A file whose stripped payload has 28 words (one too many); its first 27
payload words agree with `file_c3_exact`. -/
def file_c3_long : List ℚ := 0 :: (List.range 28).map (fun n => (n : ℚ)) ++ [0]

/-- A correctly framed file with exactly 27 payload words. -/
def file_c3_exact : List ℚ := 0 :: (List.range 27).map (fun n => (n : ℚ)) ++ [0]

/-- Filesystem serving the short file. -/
def fs_c3_short : String → Option (List ℚ) :=
  fun name => if name = "dir/A0" then some file_c3_short else none

/-- Filesystem serving the long file. -/
def fs_c3_long : String → Option (List ℚ) :=
  fun name => if name = "dir/A0" then some file_c3_long else none

/-- Filesystem serving the exact file. -/
def fs_c3_exact : String → Option (List ℚ) :=
  fun name => if name = "dir/A0" then some file_c3_exact else none

/-- State for the no-coverage depth-slice instances: one box whose z range
is `[0, 1000]`. -/
def st_c4 : St := ⟨"dir", .earth_model, s_c3, fun _ => [0, 1], fun _ => [0, 1],
  fun _ => [1000, 500, 0]⟩

/-- A second no-coverage state, z range `[1000, 2000]`. -/
def st_c4b : St := ⟨"dir", .earth_model, s_c3, fun _ => [0, 1], fun _ => [0, 1],
  fun _ => [2000, 1500, 1000]⟩

/-- Velocity-snapshot state (its `derived_components` attribute is never
assigned). -/
def st_c7v : St := ⟨"dir", .velocity_snapshot, s_c3, fun _ => [0, 1],
  fun _ => [0, 1], fun _ => [1000, 500, 0]⟩

/-- State whose single box has z values `[750, 500, 250]`. -/
def st_c8 : St := ⟨"dir", .earth_model, s_c3, fun _ => [0, 1], fun _ => [0, 1],
  fun _ => [750, 500, 250]⟩

/-- A z-coordinate list with a tie: distances to radius 8 are
`2, 0, 0, 2, 4`. -/
def zs9 : List ℚ := [10, 8, 8, 6, 4]

/-- Filesystem over `ℝ` in which every file is well-framed with constant
payload 1 (payload count 27 fits `s_c3`). -/
def fsR : String → Option (List ℝ) :=
  fun _ => some (0 :: List.replicate 27 1 ++ [0])

/-- The all-ones 3x3x3 cube over `ℝ`. -/
def ones3 : List (List (List ℝ)) :=
  List.replicate 3 (List.replicate 3 (List.replicate 3 1))

/-- Setup for the coordinate-invariant witness: degree 2, two processor
blocks along z, two local elements per axis. -/
def s_c10 : Setup := ⟨dom0, 2, ⟨1, 1, 2⟩, ⟨2, 2, 2, 2, 2, 2⟩⟩

/-- Decidable equality of `Except` values, for evaluating the reader on
concrete inputs. -/
instance exceptDecEq {ε α : Type} [DecidableEq ε] [DecidableEq α] :
    DecidableEq (Except ε α) := fun x y =>
  match x, y with
  | .error e, .error f => decidable_of_iff (e = f) (by simp)
  | .error _, .ok _ => isFalse (by simp)
  | .ok _, .error _ => isFalse (by simp)
  | .ok a, .ok b => decidable_of_iff (a = b) (by simp)

/-! Helper lemmas. -/

theorem pyMin_spec {α : Type} [LinearOrder α] (d : α) (l : List α) (h : l ≠ []) :
    pyMin d l ∈ l ∧ ∀ b ∈ l, pyMin d l ≤ b := by
  haveI : Std.Antisymm (fun x1 x2 : α => x1 ≤ x2) := ⟨fun h1 h2 => le_antisymm h1 h2⟩
  obtain ⟨x, xs, rfl⟩ := List.exists_cons_of_ne_nil h
  have hm : (x :: xs).min? = some ((x :: xs).min?.getD d) := by
    simp [List.min?]
  have := (List.min?_eq_some_iff (fun a => le_refl a) (fun a b => min_choice a b)
    (fun a b c => le_min_iff)).mp hm
  simpa [pyMin] using this

theorem pyMax_spec {α : Type} [LinearOrder α] (d : α) (l : List α) (h : l ≠ []) :
    pyMax d l ∈ l ∧ ∀ b ∈ l, b ≤ pyMax d l := by
  haveI : Std.Antisymm (fun x1 x2 : α => x1 ≤ x2) := ⟨fun h1 h2 => le_antisymm h1 h2⟩
  obtain ⟨x, xs, rfl⟩ := List.exists_cons_of_ne_nil h
  have hm : (x :: xs).max? = some ((x :: xs).max?.getD d) := by
    simp [List.max?]
  have := (List.max?_eq_some_iff (fun a => le_refl a) (fun a b => max_choice a b)
    (fun a b c => max_le_iff)).mp hm
  simpa [pyMax] using this

/-- `getD` through a `map` at an in-bounds index. -/
theorem getD_map_of_lt {α β : Type} (f : α → β) (l : List α) (j : Nat)
    (hj : j < l.length) (d : α) (e : β) :
    (l.map f).getD j e = f (l.getD j d) := by
  rw [List.getD_eq_getElem?_getD, List.getElem?_map,
    List.getElem?_eq_getElem hj, List.getD_eq_getElem?_getD,
    List.getElem?_eq_getElem hj]
  rfl

/-! C5. -/

/-- C5 (amended): `read_setup` performs no divisibility check: the local
element count along each axis is always `1 + global / procs` with floor
division; the bracketing `px*(nx-1) ≤ nx_global < px*nx` shows the
remainder is silently discarded when the division is not exact. -/
theorem c5_local_counts_floor_div (d : Domain) (gx gy gz l px py pz : Nat)
    (hx : 0 < px) :
    (read_setup d gx gy gz l px py pz).elements.nx = 1 + gx / px ∧
    px * ((read_setup d gx gy gz l px py pz).elements.nx - 1) ≤ gx ∧
    gx < px * (read_setup d gx gy gz l px py pz).elements.nx ∧
    (read_setup d gx gy gz l px py pz).elements.ny = 1 + gy / py ∧
    (read_setup d gx gy gz l px py pz).elements.nz = 1 + gz / pz := by
  have h1 := Nat.div_add_mod gx px
  have h2 := Nat.mod_lt gx hx
  refine ⟨rfl, ?_, ?_, rfl, rfl⟩
  · show px * ((1 + gx / px) - 1) ≤ gx
    simpa using Nat.le.intro h1
  · show gx < px * (1 + gx / px)
    calc gx = px * (gx / px) + gx % px := h1.symm
    _ < px * (gx / px) + px := by omega
    _ = px * (1 + gx / px) := by ring

/-- C5 witness: a divisible configuration, `nx_global = 6`, `px = 2`. -/
theorem c5_witness :
    (read_setup dom0 6 6 6 4 2 2 2).elements.nx = 1 + 6 / 2 ∧
    2 * ((read_setup dom0 6 6 6 4 2 2 2).elements.nx - 1) ≤ 6 ∧
    6 < 2 * (read_setup dom0 6 6 6 4 2 2 2).elements.nx := by
  obtain ⟨h1, h2, h3, -, -⟩ :=
    c5_local_counts_floor_div dom0 6 6 6 4 2 2 2 (by norm_num)
  exact ⟨h1, h2, h3⟩

/-- C5 counterexample: `nx_global = 5`, `px = 2` is not divisible, yet
`read_setup` returns the plain value `nx = 3` — indistinguishable from the
consistent configuration `nx_global = 4`; nothing is flagged. -/
theorem c5_counterexample :
    ¬ (2 ∣ 5) ∧ (read_setup dom0 5 5 5 4 2 2 2).elements.nx = 3 ∧
    (read_setup dom0 4 5 5 4 2 2 2).elements.nx = 3 := by decide

/-! C6. -/

/-- C6 (amended): for a degree outside `{2,...,7}` the `get_GLL` lookup
fails with the Python unbound-local NameError (not an
`UnsupportedDegreeError`), never silently defaulting; inside the range it
returns the fixed tabulated node set of `lpd + 1` nodes with endpoints
`-1` and `1`. -/
theorem c6_gll_lookup (lpd : Nat) :
    (lpd < 2 ∨ 7 < lpd → get_GLL lpd = .error .nameError) ∧
    (2 ≤ lpd → lpd ≤ 7 → ∃ knots, get_GLL lpd = .ok knots ∧
      knots.length = lpd + 1 ∧ knots.head? = some (-1) ∧
      knots.getLast? = some 1) := by
  constructor
  · intro h
    have e2 : lpd ≠ 2 := by omega
    have e3 : lpd ≠ 3 := by omega
    have e4 : lpd ≠ 4 := by omega
    have e5 : lpd ≠ 5 := by omega
    have e6 : lpd ≠ 6 := by omega
    have e7 : lpd ≠ 7 := by omega
    simp [get_GLL, e2, e3, e4, e5, e6, e7]
  · intro hl hu
    interval_cases lpd
    all_goals exact ⟨_, rfl, by decide, by decide, by decide⟩

/-- C6 witness: degree 8 fails, degree 4 succeeds. -/
theorem c6_witness :
    get_GLL 8 = .error .nameError ∧ (get_GLL 4).isOk = true := by
  constructor
  · exact (c6_gll_lookup 8).1 (by omega)
  · obtain ⟨knots, hk, -, -, -⟩ := (c6_gll_lookup 4).2 (by omega) (by omega)
    rw [hk]
    rfl

/-- C6 counterexample: at degree 8 the failure is a NameError, which is not
the `UnsupportedDegreeError` the claim names. -/
theorem c6_counterexample :
    get_GLL 8 = .error .nameError ∧
    PyErr.nameError ≠ PyErr.unsupportedDegreeError := by
  exact ⟨rfl, by decide⟩

/-! C8. -/

/-- C8: a processor box is processed by the depth-slice loop exactly when
the target radius lies inclusively between the minimum and maximum of its
z-coordinate array; equality with either endpoint selects the box. -/
theorem c8_box_selection_inclusive (st : St) (radius : ℚ) (p : Nat)
    (hp : p < n_procs st.setup) :
    p ∈ contributing_boxes st radius ↔
      pyMin 0 (st.z p) ≤ radius ∧ radius ≤ pyMax 0 (st.z p) := by
  simp [contributing_boxes, List.mem_filter, List.mem_range, hp, box_contains]

/-- C8 witness: a radius exactly equal to the box's maximal z value selects
the box. -/
theorem c8_witness :
    pyMax 0 (st_c8.z 0) = 750 ∧ 0 ∈ contributing_boxes st_c8 750 := by
  refine ⟨by decide, ?_⟩
  exact (c8_box_selection_inclusive st_c8 750 0 (by decide)).mpr (by decide)

/-! C9. -/

/-- C9: the radial index selected by `plot_depth_slice` (via `idzOf`) is
in range, attains the minimal absolute distance between the box's
z-coordinates and the target radius, and is the lowest index doing so. -/
theorem c9_idz_nearest_lowest (zs : List ℚ) (radius : ℚ) (h : zs ≠ []) :
    idzOf zs radius < zs.length ∧
    (∀ j, j < zs.length →
      pyAbs (zs.getD (idzOf zs radius) 0 - radius) ≤ pyAbs (zs.getD j 0 - radius)) ∧
    (∀ j, j < zs.length →
      pyAbs (zs.getD j 0 - radius) = pyAbs (zs.getD (idzOf zs radius) 0 - radius) →
      idzOf zs radius ≤ j) := by
  classical
  set dists := zs.map (fun t => pyAbs (t - radius)) with hd
  have hlen : dists.length = zs.length := by simp [hd]
  have hdne : dists ≠ [] := by
    simp [hd]
    exact h
  have hgd : ∀ j, j < zs.length → dists.getD j 0 = pyAbs (zs.getD j 0 - radius) := by
    intro j hj
    rw [hd]
    exact getD_map_of_lt _ zs j hj 0 0
  have hmem : ∀ j, j < zs.length → dists.getD j 0 ∈ dists := by
    intro j hj
    have hj' : j < dists.length := by omega
    rw [List.getD_eq_getElem?_getD, List.getElem?_eq_getElem hj']
    exact List.getElem_mem hj'
  have hmin := pyMin_spec 0 dists hdne
  set m := pyMin 0 dists with hm
  obtain ⟨i0, hi0, hieq⟩ := List.mem_iff_getElem.mp hmin.1
  set fl := (List.range dists.length).filter
    (fun i => decide (m = dists.getD i 0)) with hfl
  have hi0fl : i0 ∈ fl := by
    rw [hfl]
    refine List.mem_filter.mpr ⟨List.mem_range.mpr hi0, ?_⟩
    simp only [decide_eq_true_eq]
    rw [List.getD_eq_getElem?_getD, List.getElem?_eq_getElem hi0]
    exact hieq.symm
  have hflmin := pyMin_spec 0 fl (List.ne_nil_of_mem hi0fl)
  have hidz : idzOf zs radius = pyMin 0 fl := rfl
  have hin : idzOf zs radius ∈ fl := by
    rw [hidz]
    exact hflmin.1
  have hprop := List.mem_filter.mp (hfl ▸ hin)
  have hrange : idzOf zs radius < zs.length := by
    have := List.mem_range.mp hprop.1
    omega
  have hval : m = dists.getD (idzOf zs radius) 0 := by
    simpa using hprop.2
  refine ⟨hrange, ?_, ?_⟩
  · intro j hj
    have h1 : m ≤ dists.getD j 0 := hmin.2 _ (hmem j hj)
    rw [← hgd _ hrange, ← hgd _ hj, ← hval]
    exact h1
  · intro j hj heq
    have hjfl : j ∈ fl := by
      rw [hfl]
      refine List.mem_filter.mpr ⟨List.mem_range.mpr (by omega), ?_⟩
      simp only [decide_eq_true_eq]
      rw [hgd _ hj, heq, ← hgd _ hrange]
      exact hval
    rw [hidz]
    exact hflmin.2 _ hjfl

/-- C9 witness: for z-values `[10, 8, 8, 6, 4]` and radius 8 the selected
index is in range, at least as close as index 3, and (by the tie-break) at
most the tied index 2. -/
theorem c9_witness :
    idzOf zs9 8 < 5 ∧
    pyAbs (zs9.getD (idzOf zs9 8) 0 - 8) ≤ pyAbs (zs9.getD 3 0 - 8) ∧
    idzOf zs9 8 ≤ 2 := by
  obtain ⟨h1, h2, h3⟩ := c9_idz_nearest_lowest zs9 8 (by simp [zs9])
  refine ⟨h1, h2 3 (by simp [zs9]), h3 2 (by simp [zs9]) ?_⟩
  norm_num [idzOf, zs9, pyMin, pyAbs, List.min?, List.range_succ]

/-- Binding an `Except.error` short-circuits (Python exception
propagation). -/
theorem except_error_bind {eps alp bet : Type} (e : eps) (f : alp → Except eps bet) :
    (Except.error e >>= f) = Except.error e := rfl

/-! C4. -/

/-- C4 (amended): when no processor box's z-range contains the target
radius, `plot_depth_slice` fails — but with the Python NameError raised by
`m.colorbar(im, ...)` on the never-assigned plot handle, not with an
explicit `NoDataError`; it returns no empty, zero or fabricated slice. -/
theorem c4_no_coverage_nameerror {α : Type} [LinearOrder α] [DivisionRing α]
    (sqrt : α → α) (fs : String → Option (List α)) (st : St)
    (component : String) (depth : ℚ) (iteration : Nat)
    (h : ∀ p, p < n_procs st.setup →
      ¬ box_contains st (1000 * (6371 - depth)) p) :
    plot_depth_slice sqrt fs st component depth iteration =
      .error .nameError := by
  have hcb : contributing_boxes st (1000 * (6371 - depth)) = [] := by
    rw [contributing_boxes, List.filter_eq_nil_iff]
    intro p hp
    simpa using h p (List.mem_range.mp hp)
  simp [plot_depth_slice, hcb]

/-- C4 witness: a depth below all coverage (radius negative, box z-range
`[0, 1000]`) makes the call fail with the NameError. -/
theorem c4_witness :
    plot_depth_slice (α := ℚ) (fun _ => 0) (fun _ => none) st_c4 "A" 7000 0 =
      .error .nameError := by
  apply c4_no_coverage_nameerror
  intro p hp
  have hp0 : p = 0 := by
    have hn : n_procs st_c4.setup = 1 := rfl
    omega
  subst hp0
  norm_num [box_contains, st_c4, pyMin, pyMax, List.min?, List.max?]

/-- C4 counterexample: with a box z-range `[1000, 2000]` and target radius
0, the result is the NameError value, which is not the `NoDataError` the
claim names. -/
theorem c4_counterexample :
    plot_depth_slice (α := ℚ) (fun _ => 0) (fun _ => none) st_c4b "A" 6371 0 =
      .error .nameError ∧
    PyErr.nameError ≠ PyErr.noDataError := by
  constructor
  · have hcb : contributing_boxes st_c4b 0 = [] := by
      rw [contributing_boxes, List.filter_eq_nil_iff]
      intro p hp
      have hp0 : p = 0 := by
        have hn : n_procs st_c4b.setup = 1 := rfl
        have := List.mem_range.mp hp
        omega
      subst hp0
      norm_num [box_contains, st_c4b, pyMin, pyMax, List.min?, List.max?]
    simp [plot_depth_slice, hcb]
  · decide

/-! C7. -/

/-- C7 (amended): a component name in neither the primitive nor the
derived set does make `read_single_box` fail, but not with an
`UnknownComponentError`: for the earth-model field type the local `field`
is never assigned and `np.rollaxis(field, ...)` raises a NameError; for
the velocity-snapshot field type already the `self.derived_components`
attribute access raises an AttributeError. -/
theorem c7_unknown_component_errors {α : Type} [DivisionRing α]
    (sqrt : α → α) (fs : String → Option (List α)) (st : St)
    (component : String) (p iter : Nat) :
    (st.field_type = .earth_model →
      component ∉ pure_components .earth_model →
      component ∉ ["vp", "vsh", "vsv", "rho"] →
      read_single_box sqrt fs st component p iter = .error .nameError) ∧
    (st.field_type = .velocity_snapshot →
      component ∉ pure_components .velocity_snapshot →
      read_single_box sqrt fs st component p iter = .error .attributeError) := by
  constructor
  · intro hft h1 h2
    simp [read_single_box, hft, h1, h2, derived_components, except_error_bind]
  · intro hft h1
    simp [read_single_box, hft, h1, derived_components, except_error_bind]

/-- C7 witness: the unknown component `"foo"` produces a NameError for an
earth-model state and an AttributeError for a velocity-snapshot state. -/
theorem c7_witness :
    read_single_box (α := ℚ) (fun _ => 0) (fun _ => none) st_c3 "foo" 0 0 =
      .error .nameError ∧
    read_single_box (α := ℚ) (fun _ => 0) (fun _ => none) st_c7v "foo" 0 0 =
      .error .attributeError := by
  constructor
  · exact (c7_unknown_component_errors _ _ st_c3 "foo" 0 0).1 rfl
      (by decide) (by decide)
  · exact (c7_unknown_component_errors _ _ st_c7v "foo" 0 0).2 rfl (by decide)

/-- C7 counterexample: the failure value is the NameError, not the
`UnknownComponentError` the claim names. -/
theorem c7_counterexample :
    read_single_box (α := ℚ) (fun _ => 0) (fun _ => none) st_c3 "foo" 0 0 =
      .error .nameError ∧
    PyErr.nameError ≠ PyErr.unknownComponentError := by
  exact ⟨by decide, by decide⟩

/-! C3. -/

/-- Binding an `Except.ok` continues with the value. -/
theorem except_ok_bind {eps alp bet : Type} (a : alp) (f : alp → Except eps bet) :
    (Except.ok (ε := eps) a >>= f) = f a := rfl

/-- `np.rollaxis` succeeds whenever the requested start position is within
the axis count. -/
theorem rollAxes_ok_of_le (n axis start : Nat) (h : start ≤ n) :
    ∃ axes, rollAxes n axis start = .ok axes := by
  simp only [rollAxes, if_neg (by omega : ¬ (n + 1 ≤ start))]
  split
  · split
    · exact ⟨_, rfl⟩
    · exact ⟨_, rfl⟩
  · split
    · exact ⟨_, rfl⟩
    · exact ⟨_, rfl⟩

/-- The reshape pipeline succeeds on any 6-axis array when `lpd ≤ 5` (the
second `rollaxis` call's start position `lpd + 1` is then valid). -/
theorem reshape_pipeline_isOk {α : Type} (s : Setup) (field : PArr α)
    (hd : field.dims.length = 6) (hlpd : s.lpd ≤ 5) :
    (reshape_pipeline s field).isOk = true := by
  have h1 : rollAxes field.dims.length 3 1 = .ok [0, 3, 1, 2, 4, 5] := by
    rw [hd]
    decide
  obtain ⟨axes2, h2⟩ := rollAxes_ok_of_le 6 3 (s.lpd + 1) (by omega)
  have hlen : (transposeArr [0, 3, 1, 2, 4, 5] field).dims.length = 6 := by
    simp [transposeArr]
  simp [reshape_pipeline, npRollaxis, h1, hlen, h2, except_ok_bind,
    Except.isOk, Except.toBool]

/-- For a primitive component, `read_single_box` is the file read followed
by the reshape pipeline. -/
theorem read_single_box_pure {α : Type} [DivisionRing α] (sqrt : α → α)
    (fs : String → Option (List α)) (st : St) (component : String)
    (p iter : Nat) (hcomp : component ∈ pure_components st.field_type) :
    read_single_box sqrt fs st component p iter =
      read_file fs st component p iter >>= reshape_pipeline st.setup := by
  simp only [read_single_box, if_pos hcomp]

/-- A stripped buffer shorter than the payload count makes the file read
fail with the numpy TypeError. -/
theorem read_file_short {α : Type} [Zero α] (fs : String → Option (List α))
    (st : St) (c : String) (p i : Nat) (raw : List α)
    (hfs : fs (compose_filenames st c p i) = some raw)
    (hshort : (raw.drop 1).dropLast.length < payload_count st.setup) :
    read_file fs st c p i = .error .typeError := by
  simp only [read_file, hfs, ndarrayF]
  rw [if_pos hshort]

/-- A stripped buffer of at least the payload count yields the
Fortran-order array over its first `payload_count` values. -/
theorem read_file_long {α : Type} [Zero α] (fs : String → Option (List α))
    (st : St) (c : String) (p i : Nat) (raw : List α)
    (hfs : fs (compose_filenames st c p i) = some raw)
    (hnl : ¬ (raw.drop 1).dropLast.length < payload_count st.setup) :
    read_file fs st c p i = .ok ⟨box_dims st.setup, fun idx =>
      (((raw.drop 1).dropLast).take (payload_count st.setup)).getD
        (fflat st.setup idx) 0⟩ := by
  simp only [read_file, hfs, ndarrayF]
  rw [if_neg hnl]

/-- C3 (amended): after stripping the two 4-byte markers, a payload
shorter than `4*nx*ny*nz*(lpd+1)^3` bytes makes the read fail with numpy's
buffer-too-small TypeError (no `FormatError` exists); a payload of at
least that size is accepted whenever the axis roll is valid (`lpd ≤ 5`),
and the result depends only on the first `nx*ny*nz*(lpd+1)^3` payload
values — excess bytes are silently ignored, a shape-coerced partial read
of a too-long payload. -/
theorem c3_framing {α : Type} [DivisionRing α]
    (sqrt : α → α) (fs : String → Option (List α)) (st : St)
    (component : String) (p iter : Nat) (raw : List α)
    (hcomp : component ∈ pure_components st.field_type)
    (hfs : fs (compose_filenames st component p iter) = some raw) :
    ((raw.drop 1).dropLast.length < payload_count st.setup →
      read_single_box sqrt fs st component p iter = .error .typeError) ∧
    (payload_count st.setup ≤ (raw.drop 1).dropLast.length →
      st.setup.lpd ≤ 5 →
      (read_single_box sqrt fs st component p iter).isOk = true) ∧
    (∀ (fs' : String → Option (List α)) (raw' : List α),
      fs' (compose_filenames st component p iter) = some raw' →
      payload_count st.setup ≤ (raw.drop 1).dropLast.length →
      payload_count st.setup ≤ (raw'.drop 1).dropLast.length →
      (raw.drop 1).dropLast.take (payload_count st.setup) =
        (raw'.drop 1).dropLast.take (payload_count st.setup) →
      read_single_box sqrt fs st component p iter =
        read_single_box sqrt fs' st component p iter) := by
  refine ⟨?_, ?_, ?_⟩
  · intro hshort
    rw [read_single_box_pure _ _ _ _ _ _ hcomp,
      read_file_short _ _ _ _ _ _ hfs hshort]
    rfl
  · intro hlen hlpd
    rw [read_single_box_pure _ _ _ _ _ _ hcomp,
      read_file_long _ _ _ _ _ _ hfs (not_lt.mpr hlen), except_ok_bind]
    exact reshape_pipeline_isOk st.setup _ (by simp [box_dims]) hlpd
  · intro fs' raw' hfs' hlen hlen' heq
    rw [read_single_box_pure _ fs _ _ _ _ hcomp,
      read_single_box_pure _ fs' _ _ _ _ hcomp,
      read_file_long _ _ _ _ _ _ hfs (not_lt.mpr hlen),
      read_file_long _ _ _ _ _ _ hfs' (not_lt.mpr hlen'),
      except_ok_bind, except_ok_bind, heq]

/-- C3 witness: with payload count 27, a 26-word payload fails with the
TypeError, a 28-word payload is read successfully, and its cube equals the
one read from the exactly-27-word file. -/
theorem c3_witness :
    read_single_box (α := ℚ) (fun _ => 0) fs_c3_short st_c3 "A" 0 0 =
      .error .typeError ∧
    (read_single_box (α := ℚ) (fun _ => 0) fs_c3_long st_c3 "A" 0 0).isOk
      = true ∧
    read_single_box (α := ℚ) (fun _ => 0) fs_c3_long st_c3 "A" 0 0 =
      read_single_box (α := ℚ) (fun _ => 0) fs_c3_exact st_c3 "A" 0 0 := by
  refine ⟨?_, ?_, ?_⟩
  · exact (c3_framing _ fs_c3_short st_c3 "A" 0 0 file_c3_short
      (by decide) (by decide)).1 (by decide)
  · exact (c3_framing _ fs_c3_long st_c3 "A" 0 0 file_c3_long
      (by decide) (by decide)).2.1 (by decide) (by decide)
  · exact (c3_framing _ fs_c3_long st_c3 "A" 0 0 file_c3_long
      (by decide) (by decide)).2.2 fs_c3_exact file_c3_exact
      (by decide) (by decide) (by decide) (by decide)

/-- C3 counterexample: the stripped 28-word payload does not match the
27-word payload count, yet the read succeeds (no `FormatError`), and the
too-short case fails with TypeError, which is not `FormatError`. -/
theorem c3_counterexample :
    (file_c3_long.drop 1).dropLast.length = 28 ∧ payload_count s_c3 = 27 ∧
    (read_single_box (α := ℚ) (fun _ => 0) fs_c3_long st_c3 "A" 0 0).isOk
      = true ∧
    read_single_box (α := ℚ) (fun _ => 0) fs_c3_short st_c3 "A" 0 0 =
      .error .typeError ∧
    PyErr.typeError ≠ PyErr.formatError := by decide

/-! C1. -/

/-- C1: evaluation of the reader at degree 2 with `nx = ny = 1`, `nz = 2`
and sequential payload `0..53`.  Physical node ordering requires the cube
entry at global index `(0, 0, 1*3+0)` — element `(0,0,1)`, node `(0,0,0)`
— to hold the raw value at Fortran index `(0,0,1,0,0,0)`, which is `1`;
the code instead stores `6` there, the raw value of element `(0,0,0)`,
node `(0,1,0)`: `np.rollaxis(field, 3, lpd+1)` only realizes the required
axis order when `lpd = 4` (`lpd+1 = 5`), is a no-op for `lpd ∈ {2,3}`,
misplaces axes for `lpd = 5`, and raises an AxisError for `lpd ∈ {6,7}`
(final conjunct, degree-6 instance). -/
theorem c1_reshape_misplaces_nodes :
    (read_single_box (α := ℚ) (fun _ => 0) fs_c1 st_c1 "A" 0 0).toOption.map
      (fun C => cubeGet C 0 0 3) = some 6 ∧
    ((file_c1.drop 1).dropLast).getD (fflat s_c1 [0, 0, 1, 0, 0, 0]) 0 = 1 ∧
    (6 : ℚ) ≠ 1 ∧
    read_single_box (α := ℚ) (fun _ => 0) fs_c1b st_c1b "A" 0 0 =
      .error .axisError := by
  set_option maxRecDepth 4096 in decide

/-! C2. -/

/-- `getD` on `List.range`. -/
theorem getD_range_of_lt (n j : Nat) (h : j < n) :
    (List.range n).getD j 0 = j := by
  rw [List.getD_eq_getElem?_getD, List.getElem?_range h]
  rfl

/-- In-bounds entries of a materialized cube come from the array getter at
the C-order multi-index. -/
theorem cubeGet_materialize3 {α : Type} [Zero α] (A : PArr α)
    (d0 d1 d2 x y z : Nat) (hx : x < d0) (hy : y < d1) (hz : z < d2) :
    cubeGet (materialize3 A d0 d1 d2) x y z =
      A.get (cIndex A.dims ((x * d1 + y) * d2 + z)) := by
  unfold cubeGet materialize3
  rw [getD_map_of_lt _ (List.range d0) x (by simpa using hx) 0,
    getD_map_of_lt _ (List.range d1) y (by simpa using hy) 0,
    getD_map_of_lt _ (List.range d2) z (by simpa using hz) 0,
    getD_range_of_lt _ _ hx, getD_range_of_lt _ _ hy,
    getD_range_of_lt _ _ hz]

/-- Inversion of a successful primitive read: the file read succeeded and
the reshape pipeline produced the cube. -/
theorem read_single_box_pure_inv {α : Type} [DivisionRing α] (sqrt : α → α)
    (fs : String → Option (List α)) (st : St) (component : String)
    (p iter : Nat) (C : List (List (List α)))
    (hcomp : component ∈ pure_components st.field_type)
    (h : read_single_box sqrt fs st component p iter = .ok C) :
    ∃ g, read_file fs st component p iter = .ok g ∧
      reshape_pipeline st.setup g = .ok C := by
  rw [read_single_box_pure _ _ _ _ _ _ hcomp] at h
  cases hg : read_file fs st component p iter with
  | error e =>
    rw [hg] at h
    exact absurd h (by simp [except_error_bind])
  | ok g =>
    rw [hg, except_ok_bind] at h
    exact ⟨g, rfl, h⟩

/-- Inversion of a successful file read: the file exists, its stripped
buffer is long enough, and the array is the Fortran-order view over the
leading payload. -/
theorem read_file_ok_inv {α : Type} [Zero α] {fs : String → Option (List α)}
    {st : St} {c : String} {p i : Nat} {g : PArr α}
    (h : read_file fs st c p i = .ok g) :
    ∃ raw, fs (compose_filenames st c p i) = some raw ∧
      ¬ (raw.drop 1).dropLast.length < payload_count st.setup ∧
      g = ⟨box_dims st.setup, fun idx =>
        (((raw.drop 1).dropLast).take (payload_count st.setup)).getD
          (fflat st.setup idx) 0⟩ := by
  cases hfs : fs (compose_filenames st c p i) with
  | none =>
    simp only [read_file, hfs] at h
    exact absurd h (by simp)
  | some raw =>
    simp only [read_file, hfs, ndarrayF] at h
    by_cases hc : (raw.drop 1).dropLast.length < payload_count st.setup
    · rw [if_pos hc] at h
      exact absurd h (by simp)
    · rw [if_neg hc] at h
      exact ⟨raw, rfl, hc, (Except.ok.inj h).symm⟩

/-- Projection of a literal array view. -/
theorem PArr_dims_mk {α : Type} (D : List Nat) (g : List Nat → α) :
    (PArr.mk D g).dims = D := rfl

/-- Getter projection of a literal array view. -/
theorem PArr_get_mk {α : Type} (D : List Nat) (g : List Nat → α) :
    (PArr.mk D g).get = g := rfl

/-- The reshape pipeline is a pure re-indexing of the array getter: for
equally-shaped arrays it commutes with any pointwise combination of up to
three getters. -/
theorem reshape_pipeline_comb3 {α : Type} [Zero α] (s : Setup) (D : List Nat)
    (g1 g2 g3 φ : List Nat → α) (F : α → α → α → α)
    (hφ : ∀ idx, φ idx = F (g1 idx) (g2 idx) (g3 idx))
    {C1 C2 C3 : List (List (List α))}
    (h1 : reshape_pipeline s ⟨D, g1⟩ = .ok C1)
    (h2 : reshape_pipeline s ⟨D, g2⟩ = .ok C2)
    (h3 : reshape_pipeline s ⟨D, g3⟩ = .ok C3) :
    ∃ C', reshape_pipeline s ⟨D, φ⟩ = .ok C' ∧
      ∀ x y z : Nat, x < s.elements.nx * (s.lpd + 1) →
        y < s.elements.ny * (s.lpd + 1) → z < s.elements.nz * (s.lpd + 1) →
        cubeGet C' x y z =
          F (cubeGet C1 x y z) (cubeGet C2 x y z) (cubeGet C3 x y z) := by
  have hphi : φ = fun idx => F (g1 idx) (g2 idx) (g3 idx) := funext hφ
  subst hphi
  simp only [reshape_pipeline, npRollaxis, PArr_dims_mk, PArr_get_mk]
    at h1 h2 h3 ⊢
  cases hax1 : rollAxes D.length 3 1 with
  | error e =>
    rw [hax1] at h1
    exact absurd h1 (by simp [except_error_bind])
  | ok axes1 =>
    rw [hax1] at h1 h2 h3
    simp only [transposeArr, PArr_dims_mk, PArr_get_mk, except_ok_bind]
      at h1 h2 h3 ⊢
    cases hax2 : rollAxes (axes1.map fun j => D.getD j 0).length 3 (s.lpd + 1) with
    | error e =>
      rw [hax2] at h1
      exact absurd h1 (by simp [except_error_bind])
    | ok axes2 =>
      rw [hax2] at h1 h2 h3
      simp only [except_ok_bind, PArr_dims_mk, PArr_get_mk] at h1 h2 h3 ⊢
      have e1 := Except.ok.inj h1
      have e2 := Except.ok.inj h2
      have e3 := Except.ok.inj h3
      subst e1
      subst e2
      subst e3
      refine ⟨_, rfl, ?_⟩
      intro x y z hx hy hz
      rw [cubeGet_materialize3 _ _ _ _ _ _ _ hx hy hz,
        cubeGet_materialize3 _ _ _ _ _ _ _ hx hy hz,
        cubeGet_materialize3 _ _ _ _ _ _ _ hx hy hz,
        cubeGet_materialize3 _ _ _ _ _ _ _ hx hy hz]

/-- The `"rho"` branch of `read_single_box` (lines 223-227): read `rhoinv`
at iteration 0, invert pointwise, reshape. -/
theorem read_single_box_rho {α : Type} [DivisionRing α] (sqrt : α → α)
    (fs : String → Option (List α)) (st : St) (p iter : Nat)
    (hft : st.field_type = .earth_model) :
    read_single_box sqrt fs st "rho" p iter =
      read_file fs st "rhoinv" p 0 >>= fun f =>
        reshape_pipeline st.setup
          (⟨f.dims, fun idx => 1 / f.get idx⟩ : PArr α) := by
  obtain ⟨dir, ft, stp, th, ph, zz⟩ := st
  cases hft
  rfl

/-- The `"vp"` branch (lines 230-241). -/
theorem read_single_box_vp {α : Type} [DivisionRing α] (sqrt : α → α)
    (fs : String → Option (List α)) (st : St) (p iter : Nat)
    (hft : st.field_type = .earth_model) :
    read_single_box sqrt fs st "vp" p iter =
      read_file fs st "lambda" p 0 >>= fun f1 =>
        read_file fs st "mu" p 0 >>= fun f2 =>
        read_file fs st "rhoinv" p 0 >>= fun f3 =>
        reshape_pipeline st.setup (⟨f1.dims, fun idx =>
          sqrt ((f1.get idx + 2 * f2.get idx) * f3.get idx)⟩ : PArr α) := by
  obtain ⟨dir, ft, stp, th, ph, zz⟩ := st
  cases hft
  rfl

/-- The `"vsh"` branch (lines 244-252). -/
theorem read_single_box_vsh {α : Type} [DivisionRing α] (sqrt : α → α)
    (fs : String → Option (List α)) (st : St) (p iter : Nat)
    (hft : st.field_type = .earth_model) :
    read_single_box sqrt fs st "vsh" p iter =
      read_file fs st "mu" p 0 >>= fun f1 =>
        read_file fs st "rhoinv" p 0 >>= fun f2 =>
        reshape_pipeline st.setup (⟨f1.dims, fun idx =>
          sqrt (f1.get idx * f2.get idx)⟩ : PArr α) := by
  obtain ⟨dir, ft, stp, th, ph, zz⟩ := st
  cases hft
  rfl

/-- The `"vsv"` branch (lines 255-266). -/
theorem read_single_box_vsv {α : Type} [DivisionRing α] (sqrt : α → α)
    (fs : String → Option (List α)) (st : St) (p iter : Nat)
    (hft : st.field_type = .earth_model) :
    read_single_box sqrt fs st "vsv" p iter =
      read_file fs st "mu" p 0 >>= fun f1 =>
        read_file fs st "rhoinv" p 0 >>= fun f2 =>
        read_file fs st "B" p 0 >>= fun f3 =>
        reshape_pipeline st.setup (⟨f1.dims, fun idx =>
          sqrt ((f1.get idx + f3.get idx) * f2.get idx)⟩ : PArr α) := by
  obtain ⟨dir, ft, stp, th, ph, zz⟩ := st
  cases hft
  rfl

/-- C2: for the material-model field type, each derived component is
computed pointwise from the primitive cubes read at the same shape:
`rho = 1/rhoinv`, `vp = sqrt((lambda + 2*mu)*rhoinv)`,
`vsh = sqrt(mu*rhoinv)`, `vsv = sqrt((mu + B)*rhoinv)`, at every node of
the cube. -/
theorem c2_derived_pointwise (fs : String → Option (List ℝ)) (st : St)
    (p iter : Nat) (hft : st.field_type = .earth_model)
    {Lc Mc Rc Bc : List (List (List ℝ))}
    (hl : read_single_box Real.sqrt fs st "lambda" p 0 = .ok Lc)
    (hm : read_single_box Real.sqrt fs st "mu" p 0 = .ok Mc)
    (hr : read_single_box Real.sqrt fs st "rhoinv" p 0 = .ok Rc)
    (hb : read_single_box Real.sqrt fs st "B" p 0 = .ok Bc) :
    (∃ V, read_single_box Real.sqrt fs st "rho" p iter = .ok V ∧
      ∀ x y z : Nat, x < st.setup.elements.nx * (st.setup.lpd + 1) →
        y < st.setup.elements.ny * (st.setup.lpd + 1) →
        z < st.setup.elements.nz * (st.setup.lpd + 1) →
        cubeGet V x y z = 1 / cubeGet Rc x y z) ∧
    (∃ V, read_single_box Real.sqrt fs st "vp" p iter = .ok V ∧
      ∀ x y z : Nat, x < st.setup.elements.nx * (st.setup.lpd + 1) →
        y < st.setup.elements.ny * (st.setup.lpd + 1) →
        z < st.setup.elements.nz * (st.setup.lpd + 1) →
        cubeGet V x y z = Real.sqrt
          ((cubeGet Lc x y z + 2 * cubeGet Mc x y z) * cubeGet Rc x y z)) ∧
    (∃ V, read_single_box Real.sqrt fs st "vsh" p iter = .ok V ∧
      ∀ x y z : Nat, x < st.setup.elements.nx * (st.setup.lpd + 1) →
        y < st.setup.elements.ny * (st.setup.lpd + 1) →
        z < st.setup.elements.nz * (st.setup.lpd + 1) →
        cubeGet V x y z = Real.sqrt
          (cubeGet Mc x y z * cubeGet Rc x y z)) ∧
    (∃ V, read_single_box Real.sqrt fs st "vsv" p iter = .ok V ∧
      ∀ x y z : Nat, x < st.setup.elements.nx * (st.setup.lpd + 1) →
        y < st.setup.elements.ny * (st.setup.lpd + 1) →
        z < st.setup.elements.nz * (st.setup.lpd + 1) →
        cubeGet V x y z = Real.sqrt
          ((cubeGet Mc x y z + cubeGet Bc x y z) * cubeGet Rc x y z)) := by
  have hplam : ("lambda" : String) ∈ pure_components st.field_type := by
    rw [hft]; decide
  have hpmu : ("mu" : String) ∈ pure_components st.field_type := by
    rw [hft]; decide
  have hprho : ("rhoinv" : String) ∈ pure_components st.field_type := by
    rw [hft]; decide
  have hpbb : ("B" : String) ∈ pure_components st.field_type := by
    rw [hft]; decide
  obtain ⟨gL, hgL, hpL⟩ := read_single_box_pure_inv _ _ _ _ _ _ _ hplam hl
  obtain ⟨gM, hgM, hpM⟩ := read_single_box_pure_inv _ _ _ _ _ _ _ hpmu hm
  obtain ⟨gR, hgR, hpR⟩ := read_single_box_pure_inv _ _ _ _ _ _ _ hprho hr
  obtain ⟨gB, hgB, hpB⟩ := read_single_box_pure_inv _ _ _ _ _ _ _ hpbb hb
  obtain ⟨rawL, hfsL, hlenL, rfl⟩ := read_file_ok_inv hgL
  obtain ⟨rawM, hfsM, hlenM, rfl⟩ := read_file_ok_inv hgM
  obtain ⟨rawR, hfsR, hlenR, rfl⟩ := read_file_ok_inv hgR
  obtain ⟨rawB, hfsB, hlenB, rfl⟩ := read_file_ok_inv hgB
  refine ⟨?_, ?_, ?_, ?_⟩
  · have hbranch := read_single_box_rho Real.sqrt fs st p iter hft
    rw [hgR, except_ok_bind] at hbranch
    simp only [PArr_dims_mk, PArr_get_mk] at hbranch
    obtain ⟨V, hV, hpt⟩ := reshape_pipeline_comb3 st.setup (box_dims st.setup)
      _ _ _ _ (fun a _ _ => 1 / a) (fun _ => rfl) hpR hpR hpR
    exact ⟨V, by rw [hbranch]; exact hV,
      fun x y z hx hy hz => hpt x y z hx hy hz⟩
  · have hbranch := read_single_box_vp Real.sqrt fs st p iter hft
    rw [hgL, except_ok_bind, hgM, except_ok_bind, hgR, except_ok_bind]
      at hbranch
    simp only [PArr_dims_mk, PArr_get_mk] at hbranch
    obtain ⟨V, hV, hpt⟩ := reshape_pipeline_comb3 st.setup (box_dims st.setup)
      _ _ _ _ (fun a b c => Real.sqrt ((a + 2 * b) * c)) (fun _ => rfl)
      hpL hpM hpR
    exact ⟨V, by rw [hbranch]; exact hV,
      fun x y z hx hy hz => hpt x y z hx hy hz⟩
  · have hbranch := read_single_box_vsh Real.sqrt fs st p iter hft
    rw [hgM, except_ok_bind, hgR, except_ok_bind] at hbranch
    simp only [PArr_dims_mk, PArr_get_mk] at hbranch
    obtain ⟨V, hV, hpt⟩ := reshape_pipeline_comb3 st.setup (box_dims st.setup)
      _ _ _ _ (fun a b _ => Real.sqrt (a * b)) (fun _ => rfl) hpM hpR hpR
    exact ⟨V, by rw [hbranch]; exact hV,
      fun x y z hx hy hz => hpt x y z hx hy hz⟩
  · have hbranch := read_single_box_vsv Real.sqrt fs st p iter hft
    rw [hgM, except_ok_bind, hgR, except_ok_bind, hgB, except_ok_bind]
      at hbranch
    simp only [PArr_dims_mk, PArr_get_mk] at hbranch
    obtain ⟨V, hV, hpt⟩ := reshape_pipeline_comb3 st.setup (box_dims st.setup)
      _ _ _ _ (fun a b c => Real.sqrt ((a + b) * c)) (fun _ => rfl)
      hpM hpB hpR
    exact ⟨V, by rw [hbranch]; exact hV,
      fun x y z hx hy hz => hpt x y z hx hy hz⟩

/-- C2 witness: over the all-ones filesystem (`nx = ny = nz = 1`,
`lpd = 2`), each derived read succeeds and its node `(1,1,1)` carries the
claimed combination of the primitive cubes' node `(1,1,1)`. -/
theorem c2_witness :
    (read_single_box Real.sqrt fsR st_c3 "rho" 0 0).toOption.map
      (fun V => cubeGet V 1 1 1) = some (1 / cubeGet ones3 1 1 1) ∧
    (read_single_box Real.sqrt fsR st_c3 "vp" 0 0).toOption.map
      (fun V => cubeGet V 1 1 1) = some (Real.sqrt
        ((cubeGet ones3 1 1 1 + 2 * cubeGet ones3 1 1 1) *
          cubeGet ones3 1 1 1)) ∧
    (read_single_box Real.sqrt fsR st_c3 "vsh" 0 0).toOption.map
      (fun V => cubeGet V 1 1 1) = some (Real.sqrt
        (cubeGet ones3 1 1 1 * cubeGet ones3 1 1 1)) ∧
    (read_single_box Real.sqrt fsR st_c3 "vsv" 0 0).toOption.map
      (fun V => cubeGet V 1 1 1) = some (Real.sqrt
        ((cubeGet ones3 1 1 1 + cubeGet ones3 1 1 1) *
          cubeGet ones3 1 1 1)) := by
  have hlam : read_single_box Real.sqrt fsR st_c3 "lambda" 0 0 = .ok ones3 :=
    rfl
  have hmu : read_single_box Real.sqrt fsR st_c3 "mu" 0 0 = .ok ones3 := rfl
  have hrho : read_single_box Real.sqrt fsR st_c3 "rhoinv" 0 0 = .ok ones3 :=
    rfl
  have hbb : read_single_box Real.sqrt fsR st_c3 "B" 0 0 = .ok ones3 := rfl
  obtain ⟨⟨V1, hV1, hp1⟩, ⟨V2, hV2, hp2⟩, ⟨V3, hV3, hp3⟩, ⟨V4, hV4, hp4⟩⟩ :=
    c2_derived_pointwise fsR st_c3 0 0 rfl hlam hmu hrho hbb
  refine ⟨?_, ?_, ?_, ?_⟩
  · rw [hV1]
    exact congrArg some (hp1 1 1 1 (by decide) (by decide) (by decide))
  · rw [hV2]
    exact congrArg some (hp2 1 1 1 (by decide) (by decide) (by decide))
  · rw [hV3]
    exact congrArg some (hp3 1 1 1 (by decide) (by decide) (by decide))
  · rw [hV4]
    exact congrArg some (hp4 1 1 1 (by decide) (by decide) (by decide))

/-! C10. -/

/-- The knot line as a flatten of per-element blocks
`gll + 1 + 2*e`, `e = 0..n-1`. -/
theorem knot_line_flatten (gll : List ℚ) (n : Nat) (hn : 0 < n) :
    knot_line gll n =
      ((List.range n).map
        (fun e : Nat => gll.map (fun t => t + 1 + 2 * (e : ℚ)))).flatten := by
  obtain ⟨m, rfl⟩ : ∃ m, n = m + 1 := ⟨n - 1, by omega⟩
  unfold knot_line
  rw [List.range_succ_eq_map]
  simp only [List.map_cons, List.flatten_cons, List.map_map]
  have h0 : (fun t : ℚ => t + 1 + 2 * ((0 : Nat) : ℚ)) = fun t : ℚ => t + 1 := by
    funext t
    push_cast
    ring
  have hs : ((fun e : Nat => gll.map (fun t : ℚ => t + 1 + 2 * (e : ℚ))) ∘ Nat.succ)
      = fun i : Nat => gll.map (fun t : ℚ => t + 1 + 2 * ((i : ℚ) + 1)) := by
    funext i
    simp only [Function.comp]
    have : (fun t : ℚ => t + 1 + 2 * ((Nat.succ i : Nat) : ℚ))
        = fun t : ℚ => t + 1 + 2 * ((i : ℚ) + 1) := by
      funext t
      push_cast
      ring
    rw [this]
  rw [h0, hs]
  rfl

/-- Length of a flatten of `n` uniform-length blocks. -/
theorem flatten_uniform_length (B : Nat → List ℚ) (n L : Nat)
    (hB : ∀ e, e < n → (B e).length = L) :
    (((List.range n).map B).flatten).length = n * L := by
  induction n with
  | zero => simp
  | succ m ih =>
    rw [List.range_succ]
    simp only [List.map_append, List.map_cons, List.map_nil,
      List.flatten_append, List.flatten_cons, List.flatten_nil,
      List.length_append, List.append_nil]
    rw [ih (fun e he => hB e (by omega)), hB m (by omega)]
    ring

/-- Element lookup in a flatten of uniform-length blocks. -/
theorem flatten_uniform_getElem (B : Nat → List ℚ) (n L : Nat)
    (hB : ∀ e, e < n → (B e).length = L) (e o : Nat) (he : e < n)
    (ho : o < L) :
    (((List.range n).map B).flatten)[L * e + o]? = (B e)[o]? := by
  induction n with
  | zero => omega
  | succ m ih =>
    rw [List.range_succ]
    simp only [List.map_append, List.map_cons, List.map_nil,
      List.flatten_append, List.flatten_cons, List.flatten_nil,
      List.append_nil]
    have hlenm : (((List.range m).map B).flatten).length = m * L :=
      flatten_uniform_length B m L (fun x hx => hB x (by omega))
    by_cases hem : e < m
    · have hb1 : L * e + o < L * (e + 1) := by
        rw [Nat.mul_add, Nat.mul_one]
        exact Nat.add_lt_add_left ho _
      have hb2 : L * (e + 1) ≤ L * m := Nat.mul_le_mul_left L hem
      rw [List.getElem?_append_left
        (by rw [hlenm, Nat.mul_comm m L]; exact lt_of_lt_of_le hb1 hb2)]
      exact ih (fun x hx => hB x (by omega)) hem
    · have heq : e = m := by omega
      subst heq
      have hle : (((List.range e).map B).flatten).length ≤ L * e + o := by
        rw [hlenm, Nat.mul_comm e L]
        exact Nat.le_add_right _ _
      rw [List.getElem?_append_right hle]
      congr 1
      rw [hlenm, Nat.mul_comm e L, Nat.add_sub_cancel_left]

/-- The tabulated GLL node sets: `lpd + 1` nodes from `-1` to `1`,
non-decreasing and bounded by `±1`. -/
theorem gll_facts (lpd : Nat) (h2 : 2 ≤ lpd) (h7 : lpd ≤ 7) :
    ∃ gll, get_GLL lpd = .ok gll ∧ gll.length = lpd + 1 ∧
      gll.head? = some (-1) ∧ gll.getLast? = some 1 ∧
      List.Chain' (· ≤ ·) gll ∧ ∀ t ∈ gll, -1 ≤ t ∧ t ≤ 1 := by
  interval_cases lpd
  all_goals refine ⟨_, rfl, rfl, rfl, rfl, ?_, ?_⟩
  all_goals norm_num [List.chain'_cons, List.chain'_singleton,
    List.forall_mem_cons]

/-- Structure of the raw knot line built from a GLL table with the above
facts: `n * L` entries, non-decreasing, from `0` to `2n` (which is also
its maximum), with the two nodes at every element interface equal. -/
theorem knot_line_facts (gll : List ℚ) (L n : Nat) (hn : 0 < n)
    (hlen : gll.length = L)
    (hhead : gll.head? = some (-1)) (hlast : gll.getLast? = some 1)
    (hchain : List.Chain' (· ≤ ·) gll)
    (hbound : ∀ t ∈ gll, -1 ≤ t ∧ t ≤ 1) :
    (knot_line gll n).length = n * L ∧
    List.Chain' (· ≤ ·) (knot_line gll n) ∧
    (knot_line gll n).head? = some 0 ∧
    (knot_line gll n).getLast? = some (2 * (n : ℚ)) ∧
    pyMax 0 (knot_line gll n) = 2 * (n : ℚ) ∧
    (∀ f : Nat, 0 < f → f < n →
      (knot_line gll n).getD (L * f - 1) 0 =
        (knot_line gll n).getD (L * f) 0) := by
  have hne : gll ≠ [] := by
    intro h
    rw [h] at hhead
    cases hhead
  have hL : 0 < L := hlen ▸ List.length_pos.mpr hne
  set B : Nat → List ℚ := fun e => gll.map (fun t => t + 1 + 2 * (e : ℚ))
    with hBdef
  have hkl : knot_line gll n = ((List.range n).map B).flatten :=
    knot_line_flatten gll n hn
  have hBlen : ∀ e, e < n → (B e).length = L := by
    intro e he
    simp [hBdef, hlen]
  have hBne : ∀ e : Nat, B e ≠ [] := by
    intro e
    simp [hBdef, hne]
  have hBhead : ∀ e : Nat, (B e).head? = some (2 * (e : ℚ)) := by
    intro e
    rw [hBdef]
    simp only [List.head?_map, hhead, Option.map_some']
    congr 1
    ring
  have hBlast : ∀ e : Nat, (B e).getLast? = some (2 * (e : ℚ) + 2) := by
    intro e
    rw [hBdef]
    simp only [List.getLast?_map, hlast, Option.map_some']
    congr 1
    ring
  have hBchain : ∀ e : Nat, List.Chain' (· ≤ ·) (B e) := by
    intro e
    rw [hBdef]
    exact (List.chain'_map _).mpr (hchain.imp (fun a b hab => by linarith))
  have hlen' : (knot_line gll n).length = n * L := by
    rw [hkl]
    exact flatten_uniform_length B n L hBlen
  obtain ⟨m, rfl⟩ : ∃ m, n = m + 1 := ⟨n - 1, by omega⟩
  have hhead0 : (knot_line gll (m + 1)).head? = some 0 := by
    rw [hkl, List.range_succ_eq_map]
    simp only [List.map_cons, List.flatten_cons]
    rw [List.head?_append, hBhead 0]
    norm_num
  have hlast0 : (knot_line gll (m + 1)).getLast? =
      some (2 * ((m + 1 : Nat) : ℚ)) := by
    rw [hkl, List.range_succ]
    simp only [List.map_append, List.map_cons, List.map_nil,
      List.flatten_append, List.flatten_cons, List.flatten_nil,
      List.append_nil]
    rw [List.getLast?_append, hBlast m]
    simp only [Option.or_some]
    congr 1
    push_cast
    ring
  refine ⟨hlen', ?_, hhead0, hlast0, ?_, ?_⟩
  · rw [hkl]
    refine (List.chain'_flatten ?_).mpr ⟨?_, ?_⟩
    · intro hmem
      obtain ⟨e, -, he⟩ := List.mem_map.mp hmem
      exact hBne e he
    · intro l hl
      obtain ⟨e, -, rfl⟩ := List.mem_map.mp hl
      exact hBchain e
    · refine (List.chain'_map B).mpr ?_
      refine (List.chain'_range_succ _ m).mpr ?_
      intro e he
      rw [hBlast, hBhead]
      intro x hx y hy
      simp only [Option.mem_def, Option.some.injEq] at hx hy
      subst hx
      subst hy
      push_cast
      linarith
  · have hklne : knot_line gll (m + 1) ≠ [] := by
      intro h
      rw [h] at hlen'
      simp at hlen'
      omega
    have hmem2n : (2 * ((m + 1 : Nat) : ℚ)) ∈ knot_line gll (m + 1) :=
      List.mem_of_mem_getLast? (by rw [hlast0]; rfl)
    have hub : ∀ t ∈ knot_line gll (m + 1), t ≤ 2 * ((m + 1 : Nat) : ℚ) := by
      intro t ht
      rw [hkl] at ht
      obtain ⟨l, hl, htl⟩ := List.mem_flatten.mp ht
      obtain ⟨e, he, rfl⟩ := List.mem_map.mp hl
      rw [hBdef] at htl
      obtain ⟨u, hu, rfl⟩ := List.mem_map.mp htl
      have hu1 := (hbound u hu).2
      have he' : (e : ℚ) ≤ ((m + 1 : Nat) : ℚ) - 1 := by
        have he2 : e + 1 ≤ m + 1 := List.mem_range.mp he
        have : ((e + 1 : Nat) : ℚ) ≤ ((m + 1 : Nat) : ℚ) := by
          exact_mod_cast he2
        push_cast at this ⊢
        linarith
      push_cast at he' ⊢
      linarith
    have hspec := pyMax_spec 0 (knot_line gll (m + 1)) hklne
    exact le_antisymm (hub _ hspec.1) (hspec.2 _ hmem2n)
  · intro f hf0 hfn
    have hx1 := flatten_uniform_getElem B (m + 1) L hBlen (f - 1) (L - 1)
      (by omega) (by omega)
    have hx2 := flatten_uniform_getElem B (m + 1) L hBlen f 0 hfn hL
    simp only [Nat.add_zero] at hx2
    have hidx : L * f - 1 = L * (f - 1) + (L - 1) := by
      have e1 : L * f = L * (f - 1) + L := by
        conv_lhs => rw [show f = (f - 1) + 1 by omega]
        rw [Nat.mul_succ]
      set a := L * (f - 1)
      set b := L * f
      omega
    rw [hkl, List.getD_eq_getElem?_getD, List.getD_eq_getElem?_getD, hidx,
      hx1, hx2]
    have hv1 : (B (f - 1))[L - 1]? = some (2 * ((f - 1 : Nat) : ℚ) + 2) := by
      rw [show L - 1 = (B (f - 1)).length - 1 by rw [hBlen (f - 1) (by omega)],
        ← List.getLast?_eq_getElem?, hBlast]
    have hv2 : (B f)[0]? = some (2 * (f : ℚ)) := by
      rw [← List.head?_eq_getElem?, hBhead]
    rw [hv1, hv2]
    simp only [Option.getD_some]
    rw [Nat.cast_sub (by omega : 1 ≤ f)]
    push_cast
    ring

/-- Structure of the rescaled knot line (`knot * width / max(knot)`): same
length, non-decreasing, running from `0` to `width`, interfaces still
coincident. -/
theorem knot_scaled_facts (gll : List ℚ) (L n : Nat) (hn : 0 < n)
    (w : ℚ) (hw : 0 < w) (hlen : gll.length = L)
    (hhead : gll.head? = some (-1)) (hlast : gll.getLast? = some 1)
    (hchain : List.Chain' (· ≤ ·) gll)
    (hbound : ∀ t ∈ gll, -1 ≤ t ∧ t ≤ 1) :
    (knot_scaled gll n w).length = n * L ∧
    List.Chain' (· ≤ ·) (knot_scaled gll n w) ∧
    (knot_scaled gll n w).head? = some 0 ∧
    (knot_scaled gll n w).getLast? = some w ∧
    (∀ f : Nat, 0 < f → f < n →
      (knot_scaled gll n w).getD (L * f - 1) 0 =
        (knot_scaled gll n w).getD (L * f) 0) := by
  obtain ⟨hklen, hkchain, hkhead, hklast, hkmax, hkjun⟩ :=
    knot_line_facts gll L n hn hlen hhead hlast hchain hbound
  have hn' : (0 : ℚ) < (n : ℚ) := by exact_mod_cast hn
  have hM : (0 : ℚ) < pyMax 0 (knot_line gll n) := by
    rw [hkmax]
    linarith
  have hL : 0 < L := by
    have hne : gll ≠ [] := by
      intro h
      rw [h] at hhead
      cases hhead
    exact hlen ▸ List.length_pos.mpr hne
  refine ⟨?_, ?_, ?_, ?_, ?_⟩
  · rw [knot_scaled, List.length_map]
    exact hklen
  · rw [knot_scaled]
    refine (List.chain'_map _).mpr (hkchain.imp ?_)
    intro a b hab
    exact (div_le_div_iff_of_pos_right hM).mpr
      (mul_le_mul_of_nonneg_right hab (le_of_lt hw))
  · rw [knot_scaled, List.head?_map, hkhead]
    simp
  · rw [knot_scaled, List.getLast?_map, hklast, hkmax]
    simp only [Option.map_some']
    congr 1
    exact mul_div_cancel_left₀ w (by linarith)
  · intro f hf0 hfn
    have hmul : L * f < L * n := (Nat.mul_lt_mul_left hL).mpr hfn
    have hb2 : L * f < (knot_line gll n).length := by
      rw [hklen, Nat.mul_comm n L]
      exact hmul
    have hb1 : L * f - 1 < (knot_line gll n).length :=
      lt_of_le_of_lt (Nat.sub_le _ _) hb2
    rw [knot_scaled,
      getD_map_of_lt _ (knot_line gll n) (L * f - 1) hb1 0,
      getD_map_of_lt _ (knot_line gll n) (L * f) hb2 0,
      hkjun f hf0 hfn]

/-- Equal interface nodes survive list reversal, with the interface
positions of the reversed uniform-block list being of the same form. -/
theorem reverse_junction (X : List ℚ) (L n : Nat) (hL : 0 < L)
    (hn : 0 < n) (hlen : X.length = n * L)
    (hjun : ∀ f : Nat, 0 < f → f < n →
      X.getD (L * f - 1) 0 = X.getD (L * f) 0)
    (f : Nat) (hf0 : 0 < f) (hfn : f < n) :
    X.reverse.getD (L * f - 1) 0 = X.reverse.getD (L * f) 0 := by
  have hf'0 : 0 < n - f := by omega
  have hf'n : n - f < n := by omega
  have key := hjun (n - f) hf'0 hf'n
  have e1 : L * (n - f) + L * f = L * n := by
    rw [← Nat.mul_add]
    congr 1
    omega
  have hbpos : 1 ≤ L * f := Nat.mul_pos hL hf0
  have hapos : 1 ≤ L * (n - f) := Nat.mul_pos hL hf'0
  have hlen' : X.length = L * n := by
    rw [hlen, Nat.mul_comm]
  have hb1 : L * f - 1 < X.length := by
    rw [hlen']
    set a := L * (n - f)
    set b := L * f
    set c := L * n
    omega
  have hb2 : L * f < X.length := by
    rw [hlen']
    set a := L * (n - f)
    set b := L * f
    set c := L * n
    omega
  have harith1 : X.length - 1 - (L * f - 1) = L * (n - f) := by
    rw [hlen']
    set a := L * (n - f)
    set b := L * f
    set c := L * n
    omega
  have harith2 : X.length - 1 - L * f = L * (n - f) - 1 := by
    rw [hlen']
    set a := L * (n - f)
    set b := L * f
    set c := L * n
    omega
  rw [List.getD_eq_getElem?_getD, List.getD_eq_getElem?_getD,
    List.getElem?_reverse hb1, List.getElem?_reverse hb2, harith1, harith2]
  rw [List.getD_eq_getElem?_getD, List.getD_eq_getElem?_getD] at key
  exact key.symm

/-- `boundaries_z[iz] = z_min + iz * width_z`: the arange has exactly
`pz + 1` points for an exact-rational positive width. -/
theorem boundaries_z_getD (s : Setup) (hpz : 0 < s.procs.pz)
    (hz : s.domain.z_min < s.domain.z_max) (iz : Nat)
    (hiz : iz < s.procs.pz) :
    (boundaries_z s).getD iz 0 =
      s.domain.z_min + (iz : ℚ) * width_z s := by
  have hpz' : (0 : ℚ) < (s.procs.pz : ℚ) := by exact_mod_cast hpz
  have hd : s.domain.z_max - s.domain.z_min ≠ 0 := by linarith
  have hcount : (s.domain.z_max + width_z s - s.domain.z_min) / width_z s
      = (s.procs.pz : ℚ) + 1 := by
    rw [width_z]
    field_simp
    ring
  rw [boundaries_z, pyArange, hcount]
  have hceil : (Int.ceil ((s.procs.pz : ℚ) + 1)).toNat = s.procs.pz + 1 := by
    have hcast : ((s.procs.pz : ℚ) + 1) = ((s.procs.pz + 1 : Nat) : ℚ) := by
      push_cast
      ring
    rw [hcast, Int.ceil_natCast]
    simp
  rw [hceil,
    getD_map_of_lt _ (List.range (s.procs.pz + 1)) iz
      (by simpa using (by omega : iz < s.procs.pz + 1)) 0,
    getD_range_of_lt _ _ (by omega)]

/-- C10: for a valid configuration, each box's z array (assigned through
the reversed slice `z[p, ::-1]`) is non-increasing, starts at the block
origin plus the block width, ends at the block origin, has the two shared
interface nodes of neighbouring elements equal and consecutive, and the
theta and phi arrays of the same box are non-decreasing. -/
theorem c10_coordinates (s : Setup)
    (h2 : 2 ≤ s.lpd) (h7 : s.lpd ≤ 7)
    (hpx : 0 < s.procs.px) (hpy : 0 < s.procs.py) (hpz : 0 < s.procs.pz)
    (hnx : 0 < s.elements.nx) (hny : 0 < s.elements.ny)
    (hnz : 0 < s.elements.nz)
    (hth : s.domain.theta_min < s.domain.theta_max)
    (hph : s.domain.phi_min < s.domain.phi_max)
    (hzz : s.domain.z_min < s.domain.z_max)
    (p : Nat) (hp : p < n_procs s) :
    ∃ C, make_coordinates s = .ok C ∧
      List.Chain' (· ≥ ·) (C.z p) ∧
      (C.z p).head? =
        some (s.domain.z_min + (iz_of s p : ℚ) * width_z s + width_z s) ∧
      (C.z p).getLast? =
        some (s.domain.z_min + (iz_of s p : ℚ) * width_z s) ∧
      (∀ f : Nat, 0 < f → f < s.elements.nz →
        (C.z p).getD ((s.lpd + 1) * f - 1) 0 =
          (C.z p).getD ((s.lpd + 1) * f) 0) ∧
      List.Chain' (· ≤ ·) (C.theta p) ∧
      List.Chain' (· ≤ ·) (C.phi p) := by
  obtain ⟨gll, hg, hglen, hghead, hglast, hgchain, hgbound⟩ :=
    gll_facts s.lpd h2 h7
  have hwz : 0 < width_z s := div_pos (by linarith) (by exact_mod_cast hpz)
  have hwt : 0 < width_theta s := div_pos (by linarith) (by exact_mod_cast hpx)
  have hwp : 0 < width_phi s := div_pos (by linarith) (by exact_mod_cast hpy)
  obtain ⟨hzlen, hzchain, hzlhead, hzllast, hzjun⟩ :=
    knot_scaled_facts gll (s.lpd + 1) s.elements.nz hnz (width_z s) hwz
      hglen hghead hglast hgchain hgbound
  obtain ⟨-, htchain, -, -, -⟩ :=
    knot_scaled_facts gll (s.lpd + 1) s.elements.nx hnx (width_theta s) hwt
      hglen hghead hglast hgchain hgbound
  obtain ⟨-, hpchain, -, -, -⟩ :=
    knot_scaled_facts gll (s.lpd + 1) s.elements.ny hny (width_phi s) hwp
      hglen hghead hglast hgchain hgbound
  have hiz : iz_of s p < s.procs.pz := by
    rw [iz_of, Nat.div_lt_iff_lt_mul (Nat.mul_pos hpx hpy)]
    calc p < s.procs.px * s.procs.py * s.procs.pz := hp
    _ = s.procs.pz * (s.procs.px * s.procs.py) := by ring
  have horigin := boundaries_z_getD s hpz hzz (iz_of s p) hiz
  refine ⟨_, by unfold make_coordinates; rw [hg]; rfl, ?_, ?_, ?_, ?_, ?_, ?_⟩
  · dsimp only
    refine List.chain'_reverse.mpr ((List.chain'_map _).mpr (hzchain.imp ?_))
    intro a b hab
    exact add_le_add_left hab _
  · dsimp only
    rw [List.head?_reverse, List.getLast?_map, hzllast, horigin]
    rfl
  · dsimp only
    rw [List.getLast?_reverse, List.head?_map, hzlhead, horigin]
    simp
  · dsimp only
    intro f hf0 hfn
    refine reverse_junction _ (s.lpd + 1) s.elements.nz (by omega) hnz ?_ ?_
      f hf0 hfn
    · rw [List.length_map]
      exact hzlen
    · intro f' hf'0 hf'n
      have hb2 : (s.lpd + 1) * f' <
          (knot_scaled gll s.elements.nz (width_z s)).length := by
        rw [hzlen, Nat.mul_comm s.elements.nz (s.lpd + 1)]
        exact (Nat.mul_lt_mul_left (by omega)).mpr hf'n
      have hb1 := lt_of_le_of_lt (Nat.sub_le _ 1) hb2
      rw [getD_map_of_lt _ _ _ hb1 0, getD_map_of_lt _ _ _ hb2 0,
        hzjun f' hf'0 hf'n]
  · dsimp only
    exact (List.chain'_map _).mpr (htchain.imp (fun a b hab =>
      add_le_add_left hab _))
  · dsimp only
    exact (List.chain'_map _).mpr (hpchain.imp (fun a b hab =>
      add_le_add_left hab _))

/-- C10 witness: degree 2, two processor blocks along z over
`[0, 1000]`, box `p = 1` (so `iz = 1`, block origin 500, width 500): its z
array descends from 1000 to 500 with the interface nodes at positions 2
and 3 equal, and its theta array is non-decreasing. -/
theorem c10_witness :
    (make_coordinates s_c10).toOption.map (fun C => (C.z 1).head?) =
      some (some 1000) ∧
    (make_coordinates s_c10).toOption.map (fun C => (C.z 1).getLast?) =
      some (some 500) ∧
    (make_coordinates s_c10).toOption.map
      (fun C => decide (List.Chain' (· ≥ ·) (C.z 1))) = some true ∧
    (make_coordinates s_c10).toOption.map
      (fun C => decide ((C.z 1).getD 2 0 = (C.z 1).getD 3 0)) = some true ∧
    (make_coordinates s_c10).toOption.map
      (fun C => decide (List.Chain' (· ≤ ·) (C.theta 1))) = some true := by
  obtain ⟨C, hC, hchain, hhead, hlast, hjun, htheta, hphi⟩ :=
    c10_coordinates s_c10 (by decide) (by decide) (by decide) (by decide)
      (by decide) (by decide) (by decide) (by decide) (by decide)
      (by decide) (by decide) 1 (by decide)
  rw [hC]
  norm_num [s_c10, dom0, width_z, iz_of] at hhead hlast
  refine ⟨congrArg some ?_, congrArg some ?_, congrArg some ?_,
    congrArg some ?_, congrArg some ?_⟩
  · exact hhead
  · exact hlast
  · exact decide_eq_true hchain
  · exact decide_eq_true (hjun 1 (by decide) (by decide))
  · exact decide_eq_true htheta
